import Mathlib

/-!
Verification of the speaker-selection and conversation-continuity engine of
`dimensional-chat/backend/server.js` (a roleplay group-chat backend).

The JavaScript source is shallowly embedded below.  JavaScript strings are
modelled as Lean `String`s (lists of Unicode scalar values); where the source
depends on UTF-16 semantics (`.length`, `split('')`, `.slice`) we convert to
an explicit list of UTF-16 code units (`toUnits`).  All keyword tables in the
source consist of BMP characters only, so substring search on scalar values
coincides with JavaScript's UTF-16 substring search for them.

`Math.random()`-driven choices are modelled by explicit parameters: a rational
draw `r` for the weighted lottery and natural-number indices for the uniform
picks from stock-phrase lists.  The outbound completion call is modelled as an
`Except ServiceError` value supplied by the caller.
-/

namespace DimensionalChat

/-! ### JavaScript string primitives -/

/-- UTF-16 encoding of one Unicode scalar value, as JavaScript stores it:
one code unit for BMP characters, a surrogate pair for astral ones. -/
def encodeUtf16 (c : Char) : List Nat :=
  if c.toNat < 65536 then [c.toNat]
  else [55296 + (c.toNat - 65536) / 1024, 56320 + (c.toNat - 65536) % 1024]

/-- The UTF-16 code-unit sequence of a scalar-value list (JS string contents). -/
def toUnits : List Char → List Nat
  | [] => []
  | c :: t => encodeUtf16 c ++ toUnits t

/-- JavaScript `string.length`: the number of UTF-16 code units. -/
def jsLength (s : String) : Nat :=
  (toUnits s.data).length

/-- Substring test on scalar-value lists (JS `String.prototype.includes`;
the two agree because every search pattern used by the source is BMP-only). -/
def jsIncludesList (hay needle : List Char) : Bool :=
  match hay with
  | [] => needle.isEmpty
  | h :: t => needle.isPrefixOf (h :: t) || jsIncludesList t needle

/-- JavaScript `hay.includes(needle)`. -/
def jsIncludes (hay needle : String) : Bool :=
  jsIncludesList hay.data needle.data

/-- JavaScript `toLowerCase`, restricted to ASCII letters.  Every string the
source lower-cases is compared against the Chinese keyword tables below, for
which simple ASCII folding agrees with full Unicode lower-casing. -/
def jsToLowerChar (c : Char) : Char :=
  if 65 ≤ c.toNat ∧ c.toNat ≤ 90 then Char.ofNat (c.toNat + 32) else c

/-- `toLowerCase` on a whole string. -/
def jsToLowerStr (s : String) : String :=
  String.mk (s.data.map jsToLowerChar)

/-- The JavaScript `trim` whitespace set (WhiteSpace plus LineTerminator),
as UTF-16 code units. -/
def isJsWhitespaceUnit (u : Nat) : Bool :=
  u = 9 || u = 10 || u = 11 || u = 12 || u = 13 || u = 32 ||
  u = 160 || u = 5760 || (8192 ≤ u && u ≤ 8202) ||
  u = 8232 || u = 8233 || u = 8239 || u = 8287 || u = 12288 || u = 65279

/-- The whitespace set on scalar values (same code points; all are BMP). -/
def isJsWhitespaceChar (c : Char) : Bool :=
  isJsWhitespaceUnit c.toNat

/-- JavaScript `trim` on a UTF-16 code-unit list. -/
def trimUnits (l : List Nat) : List Nat :=
  ((l.dropWhile isJsWhitespaceUnit).reverse.dropWhile isJsWhitespaceUnit).reverse

/-- JavaScript `trim` on a scalar-value list. -/
def trimChars (l : List Char) : List Char :=
  ((l.dropWhile isJsWhitespaceChar).reverse.dropWhile isJsWhitespaceChar).reverse

/-- First-match association-list lookup (JS object property access on the
string-keyed literal tables of the source). -/
def lookupStr {α : Type} (table : List (String × α)) (key : String) : Option α :=
  (table.find? (fun p => p.1 = key)).map (fun p => p.2)

/-! ### Static tables of the source -/

/-- The priority-ordered topic list of `ConversationContext.extractTopic`. -/
def topicList : List String :=
  ["小哥", "张起灵", "族长", "闷油瓶",
   "胖子", "王胖子", "胖爷",
   "吴邪", "天真", "小三爷",
   "黑瞎子", "花儿爷", "花儿", "解雨臣", "霍秀秀",
   "考古", "古墓", "探险", "危险", "线索",
   "三叔", "青铜", "秘密", "机关"]

/-- The per-persona mention-alias table (`speakerKeywords`), in the insertion
order of the source object literal. -/
def speakerKeywordTable : List (String × List String) :=
  [("张起灵", ["小哥", "族长", "张起灵", "闷油瓶", "小哥在吗", "张起灵在吗"]),
   ("王胖子", ["胖子", "王胖子", "胖爷", "胖子在吗", "王胖子在吗"]),
   ("吴邪", ["吴邪", "天真", "小三爷", "吴邪在吗"]),
   ("黑瞎子", ["黑瞎子", "黑瞎子在吗"]),
   ("解雨臣", ["解雨臣", "花儿", "花儿爷", "解雨臣在吗"]),
   ("霍秀秀", ["霍秀秀", "秀秀", "霍秀秀在吗"])]

/-- The topical scoring keyword table (`keywordMapping`) of
`selectSpeakerByContext`. -/
def keywordMapping : List (String × List String) :=
  [("张起灵", ["小哥", "族长", "张起灵", "闷油瓶", "身手", "武功", "厉害", "强"]),
   ("王胖子", ["胖子", "王胖子", "胖爷", "搞笑", "幽默", "吃的", "钱"]),
   ("吴邪", ["三叔", "考古", "研究", "古董", "线索", "为什么", "怎么"]),
   ("黑瞎子", ["黑瞎子", "经验", "道上", "老练", "神秘"]),
   ("解雨臣", ["解雨臣", "花儿", "花儿爷", "分析", "逻辑", "目的", "考虑", "谨慎", "计划"]),
   ("霍秀秀", ["霍秀秀", "秀秀", "细节", "观察", "发现", "注意", "女性", "细心", "聪明"])]

/-- The continuation-indicator phrases of `isConversationContinuation`. -/
def continuationIndicators : List String :=
  ["然后呢", "接着说", "还有呢", "后来呢", "怎么样",
   "真的吗", "为什么", "怎么", "如何", "那",
   "嗯", "哦", "啊", "好吧", "原来如此"]

/-- The stock phrases used by `enforceCharacterConsistency` when a 张起灵 reply
is still over 25 units after truncation. -/
def shortReplies : List String :=
  ["嗯", "好", "小心", "危险", "...", "不行", "有东西"]

/-- Per-member static configuration inside a group (`memberDetails`). -/
structure MemberDetail where
  prompt : String
  maxTokens : Nat
deriving DecidableEq

/-- A group definition: ordered member list plus per-member configuration. -/
structure GroupConfig where
  members : List String
  memberDetails : List (String × MemberDetail)
deriving DecidableEq

/-- The `"铁三角"` group configuration. -/
def tieSanJiaoConfig : GroupConfig where
  members := ["王胖子", "吴邪", "张起灵"]
  memberDetails :=
    [("王胖子", ⟨"你是《盗墓笔记》中的王胖子。你性格直爽幽默，说话带北京口音，爱用\"胖爷\"自称。\n你对用户身份最好奇，会直接询问。回复要体现直爽幽默的特点，常用\"您\"、\"这位\"、\"嘿\"等词。", 150⟩),
     ("吴邪", ⟨"你是《盗墓笔记》中的吴邪。你性格谨慎好奇，会试探性地了解用户背景。\n你对考古和历史有浓厚兴趣，说话温和但执着。回复要体现谨慎好奇的特点，常用\"三叔\"、\"考古\"、\"研究\"等词。", 200⟩),
     ("张起灵", ⟨"你是《盗墓笔记》中的张起灵。你沉默寡言，身手不凡。\n你的回复通常非常简短，一般不超过10个字，绝对不要使用任何emoji表情。\n回复要体现沉默警觉的特点，常用\"小心\"、\"危险\"、\"...\"等。", 30⟩)]

/-- The `"嫩牛六方"` group configuration. -/
def nenNiuLiuFangConfig : GroupConfig where
  members := ["黑瞎子", "解雨臣", "霍秀秀", "王胖子", "吴邪", "张起灵"]
  memberDetails :=
    [("黑瞎子", ⟨"你是《盗墓笔记》中的黑瞎子。你经验丰富，会试探用户底细。\n说话风格神秘老练，带着调侃的语气。常用\"新面孔\"、\"有意思\"、\"经验\"等词。", 150⟩),
     ("解雨臣", ⟨"你是《盗墓笔记》中的解雨臣。你谨慎精明，会分析用户意图。\n说话冷静理性，用词精准。常用\"分析\"、\"逻辑\"、\"目的\"等词。", 180⟩),
     ("霍秀秀", ⟨"你是《盗墓笔记》中的霍秀秀。你聪明敏锐，会从细节推断。\n说话机智敏锐，观察力强。常用\"细节\"、\"观察\"、\"发现\"等词。", 160⟩),
     ("王胖子", ⟨"你是《盗墓笔记》中的王胖子。你直爽好奇，会直接发问。\n说话带北京口音，爱用\"胖爷\"自称。常用\"您\"、\"这位\"、\"嘿\"等词。", 150⟩),
     ("吴邪", ⟨"你是《盗墓笔记》中的吴邪。你谨慎但好奇，会委婉询问。\n说话温和但执着。常用\"三叔\"、\"考古\"、\"怎么知道\"等词。", 200⟩),
     ("张起灵", ⟨"你是《盗墓笔记》中的张起灵。你沉默警觉，对用户保持警惕。\n回复通常非常简短，一般不超过20个字。常用\"小心\"、\"危险\"、\"...\"等。", 30⟩)]

/-- The `groupConfigs` table of the source. -/
def groupConfigs : List (String × GroupConfig) :=
  [("铁三角", tieSanJiaoConfig), ("嫩牛六方", nenNiuLiuFangConfig)]

/-- The per-persona stock fallback lists of `getGroupFallbackResponse`. -/
def groupFallbackTable : List (String × List String) :=
  [("王胖子",
    ["嘿，您这话问得！胖爷我得琢磨琢磨。",
     "这位朋友消息灵通啊！打哪儿听来的？",
     "好家伙，这事儿您都知道？靠谱！"]),
   ("吴邪",
    ["这件事说来话长...你是怎么知道这些的？",
     "三叔要是知道我在聊这个...",
     "这个线索很有意思，我还在研究中。"]),
   ("张起灵", ["...", "小心", "危险", "有东西"]),
   ("黑瞎子",
    ["新面孔？有点意思。",
     "你这问题问得挺刁钻啊。",
     "经验告诉我，这事儿不简单。"]),
   ("解雨臣",
    ["从逻辑上分析...",
     "你的目的是什么？",
     "这件事需要谨慎考虑。"]),
   ("霍秀秀",
    ["我注意到一个细节...",
     "你的观察很敏锐。",
     "这个发现很有意思。"])]

/-! ### Per-conversation context store -/

/-- One `speakerHistory` entry pushed by `updateContext`. -/
structure SpeakerEntry where
  speaker : String
  timestamp : Nat
  message : String
deriving DecidableEq

/-- The per-(user, group) rolling state held by `ConversationContext`. -/
structure ConversationCtx where
  currentSpeaker : Option String
  topic : Option String
  lastUserMessage : String
  messageCount : Nat
  speakerHistory : List SpeakerEntry
deriving DecidableEq

/-- The zero-valued context lazily created by `getUserContext`. -/
def initialContext : ConversationCtx where
  currentSpeaker := none
  topic := none
  lastUserMessage := ""
  messageCount := 0
  speakerHistory := []

/-- `ConversationContext.extractTopic`: first topic of the fixed list that is
a substring of the message, else `none`. -/
def extractTopic (message : String) : Option String :=
  topicList.find? (fun topic => jsIncludes message topic)

/-- `ConversationContext.updateContext` on one context (the store lookup by
(user, group) key is abstracted away); `now` stands for `Date.now()`. -/
def updateContext (ctx : ConversationCtx) (speaker : String) (userMessage : String)
    (now : Nat) : ConversationCtx :=
  let pushed := ctx.speakerHistory ++ [⟨speaker, now, userMessage⟩]
  let trimmed := if pushed.length > 10 then pushed.drop (pushed.length - 10) else pushed
  { currentSpeaker := some speaker
    topic := extractTopic userMessage
    lastUserMessage := userMessage
    messageCount := ctx.messageCount + 1
    speakerHistory := trimmed }

/-- `getMentionedSpeakers`: personas (in table order) one of whose alias
keywords occurs in the message. -/
def getMentionedSpeakers (message : String) : List String :=
  (speakerKeywordTable.filter
    (fun p => p.2.any (fun keyword => jsIncludes message keyword))).map (fun p => p.1)

/-- The topic-match test of `shouldContinueWithSameSpeaker`: both the freshly
extracted topic and the stored one are present and equal (JS `currentTopic &&
context.topic && currentTopic === context.topic`). -/
def topicMatches (ctx : ConversationCtx) (userMessage : String) : Bool :=
  match extractTopic userMessage, ctx.topic with
  | some a, some b => a = b
  | _, _ => false

/-- Whether the message contains one of the continuation-indicator phrases. -/
def containsContinuationIndicator (message : String) : Bool :=
  continuationIndicators.any (fun indicator => jsIncludes message indicator)

/-- `isConversationContinuation`: short message, indicator phrase, or a
question mark (ASCII or full-width) anywhere in the previous user message. -/
def isConversationContinuation (currentMessage lastMessage : String) : Bool :=
  if jsLength currentMessage ≤ 5 then true
  else if containsContinuationIndicator currentMessage then true
  else if jsIncludes lastMessage "?" || jsIncludes lastMessage "？" then true
  else false

/-- `shouldContinueWithSameSpeaker` on one context. -/
def shouldContinueWithSameSpeaker (ctx : ConversationCtx) (userMessage : String) : Bool :=
  if ctx.messageCount < 2 then false
  else if 0 < (getMentionedSpeakers userMessage).length then false
  else if topicMatches ctx userMessage then true
  else if isConversationContinuation userMessage ctx.lastUserMessage then true
  else false

/-- `getContinuationSpeaker`: the context's current speaker. -/
def getContinuationSpeaker (ctx : ConversationCtx) : Option String :=
  ctx.currentSpeaker

/-! ### Speaker selection scorer -/

/-- One entry of the request's `conversationHistory`; `name` is the empty
string when the JS object has no (truthy) `name` field. -/
structure HistMsg where
  type : String
  name : String
  text : String
deriving DecidableEq

/-- The named speakers of bot messages within the last-8 window of the
history (`recentSpeakers` in `selectSpeakerByContext`). -/
def recentBotSpeakers (history : List HistMsg) : List String :=
  ((history.drop (history.length - 8)).filter
    (fun msg => msg.type = "bot" ∧ msg.name ≠ "")).map (fun msg => msg.name)

/-- The score `selectSpeakerByContext` computes for one member: recency base,
keyword bonuses, last-speaker penalty, persona adjustments, floored at 1. -/
def speakerScore (recentSpeakers : List String) (messageLower : String)
    (member : String) : Int :=
  let base : Int := ((10 : Int) - (min (recentSpeakers.count member) 10 : Nat)) * 3
  let withKeywords :=
    ((lookupStr keywordMapping member).getD []).foldl
      (fun s keyword =>
        if jsIncludes messageLower (jsToLowerStr keyword) then s + 8 else s) base
  let withPenalty :=
    if 0 < recentSpeakers.length ∧ recentSpeakers.getLast? = some member
    then withKeywords - 5 else withKeywords
  let withZhang := if member = "张起灵" then withPenalty - 3 else withPenalty
  let withTalkers :=
    if member = "王胖子" ∨ member = "吴邪" then withZhang + 2 else withZhang
  max withTalkers 1

/-- The cumulative-subtraction walk of the weighted lottery: subtract each
member's score from the draw and return the member where it first drops to
`≤ 0`; `none` when the loop falls through. -/
def weightedPick (members : List String) (score : String → Int) (r : ℚ) :
    Option String :=
  match members with
  | [] => none
  | m :: rest =>
    if r - (score m : ℚ) ≤ 0 then some m
    else weightedPick rest score (r - (score m : ℚ))

/-- The fallback after the lottery loop: the member with the smallest recency
count, first member winning ties. -/
def leastFrequent (members recentSpeakers : List String) : Option String :=
  match members with
  | [] => none
  | m0 :: _ =>
    some (members.foldl
      (fun best m =>
        if recentSpeakers.count m < recentSpeakers.count best then m else best) m0)

/-- `selectSpeakerByContext`.  `r` is the value of
`Math.random() * totalScore`, kept exact as a rational.  Returns `none` when
the group is missing or empty (where the JS code would return `undefined`). -/
def selectSpeakerByContext (character message : String) (history : List HistMsg)
    (r : ℚ) : Option String :=
  match lookupStr groupConfigs character with
  | none => none
  | some cfg =>
    let mentionedSpeakers := getMentionedSpeakers message
    let availableMentioned :=
      mentionedSpeakers.filter (fun speaker => cfg.members.contains speaker)
    match availableMentioned.head? with
    | some selected => some selected
    | none =>
      let recentSpeakers := recentBotSpeakers history
      let messageLower := jsToLowerStr message
      match weightedPick cfg.members
          (fun m => speakerScore recentSpeakers messageLower m) r with
      | some m => some m
      | none => leastFrequent cfg.members recentSpeakers

/-! ### Reply normalizer -/

/-- The code points removed by the emoji-strip regex of
`enforceCharacterConsistency` (its four `\u{...}` ranges). -/
def isStrippedEmoji (c : Char) : Bool :=
  (128512 ≤ c.toNat && c.toNat ≤ 128591) ||
  (127744 ≤ c.toNat && c.toNat ≤ 128511) ||
  (128640 ≤ c.toNat && c.toNat ≤ 128767) ||
  (127456 ≤ c.toNat && c.toNat ≤ 127487)

/-- The emoji-strip pass (`reply.replace(emojiRegex, '')`). -/
def stripEmoji (l : List Char) : List Char :=
  l.filter (fun c => !(isStrippedEmoji c))

/-- The truncation pass: `split('')` (UTF-16 units), keep 20 and append
`'...'` when longer. -/
def truncStep (l : List Char) : List Nat :=
  let words := toUnits l
  if words.length > 20 then words.take 20 ++ [46, 46, 46] else words

/-- `enforceCharacterConsistency`.  `rand` drives the uniform stock-phrase
pick (`Math.floor(Math.random() * length)` modelled as `rand % length`).
The result is a UTF-16 code-unit list. -/
def enforceCharacterConsistency (reply : List Char) (speaker : String)
    (rand : Nat) : List Nat :=
  if speaker = "张起灵" then
    let truncated := truncStep (stripEmoji reply)
    let final :=
      if truncated.length > 25 then
        toUnits (shortReplies.getD (rand % shortReplies.length) "").data
      else truncated
    trimUnits final
  else trimUnits (toUnits reply)

/-! ### Group-chat request handler -/

/-- The failure kinds of the outbound completion call (spec §6); the handler
treats all of them alike. -/
inductive ServiceError where
  | authError | rateLimited | serverError | networkError | timeout
deriving DecidableEq

/-- `getGroupFallbackResponse`: a uniform pick from the speaker's stock
fallback list (default list for unknown speakers). -/
def getGroupFallbackResponse (speaker : String) (rand : Nat) : String :=
  let speakerFallbacks := (lookupStr groupFallbackTable speaker).getD ["我现在无法回复。"]
  speakerFallbacks.getD (rand % speakerFallbacks.length) ""

/-- The observable outcome of one `handleGroupChatSmart` turn: the JSON reply
fields and the context as it stands after the turn. -/
structure GroupOutcome where
  reply : List Nat
  speaker : String
  usedFallback : Bool
  newContext : ConversationCtx
deriving DecidableEq

/-- `handleGroupChatSmart` for one turn.  `apiResult` is the outcome of the
`axios.post` call (`Except.ok` carries `response...content`); `randEnforce`
and `randFallback` are the random indices consumed by the normalizer and the
fallback pick; `now` is `Date.now()`.  Returns `none` on the paths where the
JS code throws before its `try` block (no current speaker to continue with,
or a speaker without a `memberDetails` entry).  Prompt assembly
(`buildIntelligentPrompt`) only feeds the opaque completion call, so it does
not appear in the outcome. -/
def handleGroupChatSmart (character : String) (ctx : ConversationCtx)
    (message : String) (history : List HistMsg) (r : ℚ)
    (apiResult : Except ServiceError (List Char)) (randEnforce randFallback : Nat)
    (now : Nat) : Option GroupOutcome :=
  match lookupStr groupConfigs character with
  | none => none
  | some cfg =>
    let selectedSpeaker :=
      if shouldContinueWithSameSpeaker ctx message then getContinuationSpeaker ctx
      else selectSpeakerByContext character message history r
    match selectedSpeaker with
    | none => none
    | some speaker =>
      match lookupStr cfg.memberDetails speaker with
      | none => none
      | some _ =>
        match apiResult with
        | Except.ok raw =>
          let aiReply := enforceCharacterConsistency (trimChars raw) speaker randEnforce
          some { reply := aiReply
                 speaker := speaker
                 usedFallback := false
                 newContext := updateContext ctx speaker message now }
        | Except.error _ =>
          some { reply := toUnits (getGroupFallbackResponse speaker randFallback).data
                 speaker := speaker
                 usedFallback := true
                 newContext := ctx }

/-! ### Helper lemmas -/

/-- Dropping a prefix by a predicate never lengthens a list. -/
lemma length_dropWhile_le' {α : Type} (p : α → Bool) (l : List α) :
    (l.dropWhile p).length ≤ l.length := by
  induction l with
  | nil => simp
  | cons a t ih =>
    rw [List.dropWhile_cons]
    split
    · exact le_trans ih (by simp)
    · simp

/-- JavaScript `trim` never lengthens a string. -/
lemma trimUnits_length_le (l : List Nat) : (trimUnits l).length ≤ l.length := by
  unfold trimUnits
  rw [List.length_reverse]
  calc ((l.dropWhile isJsWhitespaceUnit).reverse.dropWhile isJsWhitespaceUnit).length
      ≤ (l.dropWhile isJsWhitespaceUnit).reverse.length :=
        length_dropWhile_le' _ _
    _ = (l.dropWhile isJsWhitespaceUnit).length := List.length_reverse _
    _ ≤ l.length := length_dropWhile_le' _ _

/-- The truncation pass yields at most 23 code units (20 kept plus `'...'`). -/
lemma truncStep_length_le (l : List Char) : (truncStep l).length ≤ 23 := by
  simp only [truncStep]
  split
  · rw [List.length_append, List.length_take]
    simp only [List.length_cons, List.length_nil]
    omega
  · next h => omega

/-- On 张起灵 the normalizer always takes the truncation path: the stock-phrase
branch is guarded by a length test that can never succeed. -/
lemma enforce_zql_eq (reply : List Char) (rand : Nat) :
    enforceCharacterConsistency reply "张起灵" rand
      = trimUnits (truncStep (stripEmoji reply)) := by
  have h : ¬ (truncStep (stripEmoji reply)).length > 25 := by
    have := truncStep_length_le (stripEmoji reply)
    omega
  simp only [enforceCharacterConsistency, if_pos rfl, if_neg h]
  simp

/-- Folding `+ 8` over the matched keywords equals `8 ×` the match count. -/
lemma foldl_add8 (p : String → Bool) (ks : List String) (s0 : Int) :
    ks.foldl (fun s keyword => if p keyword then s + 8 else s) s0
      = s0 + 8 * ((ks.filter p).length : Int) := by
  induction ks generalizing s0 with
  | nil => simp
  | cons k t ih =>
    rw [List.foldl_cons, List.filter_cons]
    by_cases hk : p k
    · rw [if_pos hk, if_pos hk, ih]
      simp only [List.length_cons]
      push_cast
      ring
    · rw [if_neg hk, if_neg hk, ih]

/-- A `getD` at an index reduced modulo the length picks an element of the
list (when it is non-empty). -/
lemma getD_mod_mem {α : Type} (l : List α) (hne : l ≠ []) (r : Nat) (d : α) :
    l.getD (r % l.length) d ∈ l := by
  have hlen : 0 < l.length := List.length_pos.mpr hne
  have hi : r % l.length < l.length := Nat.mod_lt _ hlen
  rw [List.getD_eq_getElem l d hi]
  exact List.getElem_mem hi

/-- The fallback pick always lands in the speaker's stock list. -/
lemma fallback_mem (speaker : String) (rand : Nat) :
    getGroupFallbackResponse speaker rand
      ∈ (lookupStr groupFallbackTable speaker).getD ["我现在无法回复。"] := by
  unfold getGroupFallbackResponse
  apply getD_mod_mem
  cases hf : lookupStr groupFallbackTable speaker with
  | none => simp
  | some v =>
    simp only [Option.getD_some]
    have htable : ∀ p ∈ groupFallbackTable, p.2 ≠ [] := by decide
    unfold lookupStr at hf
    rcases Option.map_eq_some'.mp hf with ⟨pair, hfind, hsnd⟩
    have hmem := List.mem_of_find?_eq_some hfind
    rw [← hsnd]
    exact htable pair hmem

/-- The last `n` elements of a list. -/
def lastN {α : Type} (n : Nat) (l : List α) : List α :=
  l.drop (l.length - n)

/-- Pushing one element onto the last-10 window and re-trimming yields the
last-10 window of the extended list. -/
lemma pushTrim_lastN {α : Type} (acc : List α) (e : α) :
    (if (lastN 10 acc ++ [e]).length > 10
     then (lastN 10 acc ++ [e]).drop ((lastN 10 acc ++ [e]).length - 10)
     else lastN 10 acc ++ [e]) = lastN 10 (acc ++ [e]) := by
  unfold lastN
  by_cases hn : acc.length ≤ 10
  · have h0 : acc.length - 10 = 0 := by omega
    rw [h0, List.drop_zero]
    by_cases hc : (acc ++ [e]).length > 10
    · rw [if_pos hc]
    · rw [if_neg hc]
      have h1 : (acc ++ [e]).length - 10 = 0 := by omega
      rw [h1, List.drop_zero]
  · push_neg at hn
    have hlen : (acc.drop (acc.length - 10)).length = 10 := by
      rw [List.length_drop]; omega
    have hc : (acc.drop (acc.length - 10) ++ [e]).length > 10 := by
      simp [List.length_append, hlen]
    rw [if_pos hc]
    simp only [List.drop_append_eq_append_drop, List.length_append,
      List.length_singleton, hlen, List.drop_drop]
    have e1 : acc.length - 10 + (10 + 1 - 10) = acc.length + 1 - 10 := by omega
    have e2 : acc.length + 1 - 10 - acc.length = 0 := by omega
    rw [e1, e2]

/-- One `updateContext` step maps the last-10 window of the already-appended
entries to the last-10 window after the new entry. -/
lemma updateContext_hist (ctx : ConversationCtx) (s m : String) (now : Nat)
    (acc : List SpeakerEntry) (h : ctx.speakerHistory = lastN 10 acc) :
    (updateContext ctx s m now).speakerHistory = lastN 10 (acc ++ [⟨s, now, m⟩]) := by
  simp only [updateContext]
  rw [h]
  exact pushTrim_lastN acc ⟨s, now, m⟩

/-- The entry `updateContext` appends for one call, from the call's
(speaker, userMessage, now) triple. -/
def mkEntry (u : String × String × Nat) : SpeakerEntry :=
  ⟨u.1, u.2.2, u.2.1⟩

/-- A sequence of `updateContext` calls, each a (speaker, userMessage, now)
triple, applied in order. -/
def applyUpdates (ctx : ConversationCtx) (updates : List (String × String × Nat)) :
    ConversationCtx :=
  updates.foldl (fun c u => updateContext c u.1 u.2.1 u.2.2) ctx

/-- A context whose current speaker is 张起灵 and which has seen two turns. -/
def c7Ctx : ConversationCtx :=
  ⟨some "张起灵", none, "", 2, []⟩

/-! ### The claims -/

/-- Claim C1: for every group and every message whose mentioned-persona list
contains at least one member of the group, `selectSpeakerByContext` returns
the first such mentioned persona in mention-table order, for every history
and every random draw (the scoring path is not taken). -/
theorem select_mention_first (g : String) (cfg : GroupConfig)
    (hg : lookupStr groupConfigs g = some cfg) (message p : String)
    (hp : ((getMentionedSpeakers message).filter
        (fun speaker => cfg.members.contains speaker)).head? = some p)
    (history : List HistMsg) (r : ℚ) :
    selectSpeakerByContext g message history r = some p := by
  unfold selectSpeakerByContext
  rw [hg]
  simp only [hp]

/-- Witness for C1: in group 铁三角 the message `"王胖子在吗"` mentions 王胖子,
and selection returns 王胖子 regardless of history and draw. -/
theorem select_mention_first_witness :
    selectSpeakerByContext "铁三角" "王胖子在吗" [] 0 = some "王胖子" :=
  select_mention_first "铁三角" tieSanJiaoConfig (by decide) "王胖子在吗" "王胖子"
    (by decide) [] 0

/-- Claim C5: starting from the lazily-created context, after any sequence of
`updateContext` calls the speaker history is exactly the last ten appended
entries in append order; in particular its length never exceeds ten. -/
theorem speakerHistory_bounded (updates : List (String × String × Nat)) :
    (applyUpdates initialContext updates).speakerHistory
        = lastN 10 (updates.map mkEntry)
    ∧ (applyUpdates initialContext updates).speakerHistory.length ≤ 10 := by
  have main : ∀ (us : List (String × String × Nat)) (ctx : ConversationCtx)
      (acc : List SpeakerEntry), ctx.speakerHistory = lastN 10 acc →
      (applyUpdates ctx us).speakerHistory = lastN 10 (acc ++ us.map mkEntry) := by
    intro us
    induction us with
    | nil =>
      intro ctx acc h
      simpa [applyUpdates] using h
    | cons u t ih =>
      intro ctx acc h
      have hstep := updateContext_hist ctx u.1 u.2.1 u.2.2 acc h
      have hrec := ih (updateContext ctx u.1 u.2.1 u.2.2) (acc ++ [mkEntry u]) hstep
      simpa [applyUpdates, List.append_assoc, mkEntry] using hrec
  have h0 : initialContext.speakerHistory = lastN 10 [] := rfl
  have h1 := main updates initialContext [] h0
  rw [List.nil_append] at h1
  refine ⟨h1, ?_⟩
  rw [h1]
  unfold lastN
  rw [List.length_drop]
  omega

/-- Claim C6: with fewer than two processed messages the continuity engine
always reselects (`shouldContinueWithSameSpeaker` returns `false`), whatever
the message. -/
theorem shouldContinue_fresh_false (ctx : ConversationCtx) (msg : String)
    (h : ctx.messageCount < 2) :
    shouldContinueWithSameSpeaker ctx msg = false := by
  unfold shouldContinueWithSameSpeaker
  rw [if_pos h]

/-- Witness for C6: the fresh context (count 0) with a mention-laden message
still yields `false`. -/
theorem shouldContinue_fresh_false_witness :
    initialContext.messageCount < 2
    ∧ shouldContinueWithSameSpeaker initialContext "小哥在吗" = false :=
  ⟨by decide, shouldContinue_fresh_false initialContext "小哥在吗" (by decide)⟩

/-- Claim C7: with at least two processed messages, any message that mentions
a persona forces reselection, even when the mentioned persona is the current
speaker. -/
theorem shouldContinue_mention_false (ctx : ConversationCtx) (msg : String)
    (h2 : 2 ≤ ctx.messageCount) (hm : getMentionedSpeakers msg ≠ []) :
    shouldContinueWithSameSpeaker ctx msg = false := by
  unfold shouldContinueWithSameSpeaker
  rw [if_neg (by omega), if_pos (List.length_pos.mpr hm)]

/-- Witness for C7: `"小哥"` mentions exactly the current speaker 张起灵, and
continuation is still refused. -/
theorem shouldContinue_mention_false_witness :
    getMentionedSpeakers "小哥" = ["张起灵"]
    ∧ c7Ctx.currentSpeaker = some "张起灵"
    ∧ shouldContinueWithSameSpeaker c7Ctx "小哥" = false :=
  ⟨by decide, rfl, shouldContinue_mention_false c7Ctx "小哥" (by decide) (by decide)⟩

/-- With the early continuity checks out of the way, `shouldContinue` is just
the conversation-continuation heuristic. -/
lemma shouldContinue_eq_continuation (ctx : ConversationCtx) (msg : String)
    (h2 : ¬ ctx.messageCount < 2) (hm : getMentionedSpeakers msg = [])
    (ht : topicMatches ctx msg = false) :
    shouldContinueWithSameSpeaker ctx msg
      = isConversationContinuation msg ctx.lastUserMessage := by
  unfold shouldContinueWithSameSpeaker
  rw [if_neg h2, hm]
  simp only [List.length_nil, lt_self_iff_false, if_false, ht]
  cases hI : isConversationContinuation msg ctx.lastUserMessage <;> simp [hI]

/-- The claimed wording of the third continuation trigger: the previous user
message ENDED with a question mark (modelled from the spec sentence; the code
instead tests mere containment). -/
def specEndsWithQuestionMark (s : String) : Bool :=
  match s.data.getLast? with
  | some c => c = '?' || c = '？'
  | none => false

/-- A context two turns in, whose previous user message contains a question
mark in the middle but does not end with one. -/
def c2Ctx : ConversationCtx :=
  ⟨some "吴邪", none, "你吃饭?了吗", 2, []⟩

/-- Counterexample to claim C2 as stated: the message `"今天天气真好呀"` is
longer than 5 characters, contains no continuation indicator, mentions nobody
and matches no topic, and the previous message does not END with a question
mark — yet `shouldContinueWithSameSpeaker` returns `true`, because the code
tests whether the previous message CONTAINS a question mark anywhere. -/
theorem shouldContinue_endswith_counterexample :
    shouldContinueWithSameSpeaker c2Ctx "今天天气真好呀" = true
    ∧ ¬ jsLength "今天天气真好呀" ≤ 5
    ∧ containsContinuationIndicator "今天天气真好呀" = false
    ∧ specEndsWithQuestionMark c2Ctx.lastUserMessage = false
    ∧ getMentionedSpeakers "今天天气真好呀" = []
    ∧ topicMatches c2Ctx "今天天气真好呀" = false
    ∧ 2 ≤ c2Ctx.messageCount := by
  refine ⟨by decide, by decide, by decide, by decide, by decide, by decide, by decide⟩

/-- Claim C2 (amended): for contexts with `messageCount ≥ 2` and messages
with no mentions and no topic match, `shouldContinueWithSameSpeaker` returns
`true` iff the message has at most 5 UTF-16 units, or contains a
continuation-indicator phrase, or the previous user message CONTAINS an ASCII
`'?'` or full-width `'？'` anywhere (the claim said "ended with"). -/
theorem shouldContinue_continuation_iff (ctx : ConversationCtx) (msg : String)
    (h2 : 2 ≤ ctx.messageCount) (hm : getMentionedSpeakers msg = [])
    (ht : topicMatches ctx msg = false) :
    shouldContinueWithSameSpeaker ctx msg = true ↔
      (jsLength msg ≤ 5 ∨ containsContinuationIndicator msg = true ∨
        (jsIncludes ctx.lastUserMessage "?" || jsIncludes ctx.lastUserMessage "？")
          = true) := by
  rw [shouldContinue_eq_continuation ctx msg (by omega) hm ht]
  unfold isConversationContinuation
  by_cases hA : jsLength msg ≤ 5
  · simp [hA]
  · by_cases hB : containsContinuationIndicator msg = true
    · simp [hA, hB]
    · by_cases hC : (jsIncludes ctx.lastUserMessage "?"
          || jsIncludes ctx.lastUserMessage "？") = true
      · simp [hA, hB, hC]
      · simp [hA, hB, hC]

/-- A context two turns in whose previous user message ends with `'?'`. -/
def c2WitnessCtx : ConversationCtx :=
  ⟨some "吴邪", none, "在吗?", 2, []⟩

/-- Witness for C2 (amended): `"然后呢"` is a short continuation message, so
the engine keeps the current speaker. -/
theorem shouldContinue_continuation_iff_witness :
    shouldContinueWithSameSpeaker c2WitnessCtx "然后呢" = true :=
  (shouldContinue_continuation_iff c2WitnessCtx "然后呢" (by decide) (by decide)
    (by decide)).mpr (Or.inl (by decide))

/-- The claim's closed-form score: recency base, `8 ×` keyword matches, last
speaker penalty, persona adjustment, floored at 1. -/
def c8Formula (recentSpeakers : List String) (messageLower member : String) : Int :=
  max 1
    (((10 : Int) - (min (recentSpeakers.count member) 10 : Nat)) * 3
      + 8 * ((((lookupStr keywordMapping member).getD []).filter
          (fun keyword => jsIncludes messageLower (jsToLowerStr keyword))).length : Int)
      - (if recentSpeakers.getLast? = some member then 5 else 0)
      + (if member = "张起灵" then -3
         else if member = "王胖子" ∨ member = "吴邪" then 2 else 0))

/-- The source's sequential score computation equals the closed formula. -/
lemma score_eq_formula (recent : List String) (ml member : String) :
    speakerScore recent ml member = c8Formula recent ml member := by
  simp only [speakerScore, c8Formula]
  rw [foldl_add8]
  have hpen : (0 < recent.length ∧ recent.getLast? = some member)
      ↔ recent.getLast? = some member := by
    constructor
    · rintro ⟨_, h⟩; exact h
    · intro h
      refine ⟨?_, h⟩
      cases recent with
      | nil => simp at h
      | cons a t => simp
  by_cases hz : member = "张起灵"
  · have hw : ¬ (member = "王胖子" ∨ member = "吴邪") := by
      subst hz; decide
    rw [if_pos hz, if_pos hz, if_neg hw]
    by_cases hL : recent.getLast? = some member
    · rw [if_pos (hpen.mpr hL), if_pos hL]
      omega
    · rw [if_neg (fun hand => hL (hpen.mp hand)), if_neg hL]
      omega
  · by_cases hw : member = "王胖子" ∨ member = "吴邪"
    · rw [if_neg hz, if_neg hz, if_pos hw, if_pos hw]
      by_cases hL : recent.getLast? = some member
      · rw [if_pos (hpen.mpr hL), if_pos hL]
        omega
      · rw [if_neg (fun hand => hL (hpen.mp hand)), if_neg hL]
        omega
    · rw [if_neg hz, if_neg hz, if_neg hw, if_neg hw]
      by_cases hL : recent.getLast? = some member
      · rw [if_pos (hpen.mpr hL), if_pos hL]
        omega
      · rw [if_neg (fun hand => hL (hpen.mp hand)), if_neg hL]
        omega

/-- Claim C8: in the scoring path, every member's score is
`max(1, (10 − min(recency, 10))·3 + 8·keywordMatches − 5·[last speaker] +
persona adjustment)`, and in particular at least 1. -/
theorem speakerScore_formula (g : String) (cfg : GroupConfig)
    (hg : lookupStr groupConfigs g = some cfg) (member : String)
    (hmem : member ∈ cfg.members) (history : List HistMsg) (message : String) :
    speakerScore (recentBotSpeakers history) (jsToLowerStr message) member
        = c8Formula (recentBotSpeakers history) (jsToLowerStr message) member
    ∧ 1 ≤ speakerScore (recentBotSpeakers history) (jsToLowerStr message) member := by
  refine ⟨score_eq_formula _ _ _, ?_⟩
  unfold speakerScore
  exact le_max_right _ 1

/-- Witness for C8: 王胖子 in 铁三角 with empty history and empty message
scores `max(1, 30 + 0 − 0 + 2) = 32`. -/
theorem speakerScore_formula_witness :
    speakerScore (recentBotSpeakers []) (jsToLowerStr "") "王胖子"
        = c8Formula (recentBotSpeakers []) (jsToLowerStr "") "王胖子"
    ∧ 1 ≤ speakerScore (recentBotSpeakers []) (jsToLowerStr "") "王胖子" :=
  speakerScore_formula "铁三角" tieSanJiaoConfig (by decide) "王胖子" (by decide)
    [] ""

/-- Claim C9: over a non-empty member list with all scores at least 1 and a
draw `0 ≤ r <` total score, the cumulative-subtraction walk always returns a
member inside the loop (exact arithmetic), so the least-recency fallback after
the loop is unreachable. -/
theorem weightedPick_total (members : List String) (score : String → Int) (r : ℚ)
    (hne : members ≠ []) (hpos : ∀ m ∈ members, 1 ≤ score m) (hr0 : 0 ≤ r)
    (hrlt : r < (members.map (fun m => (score m : ℚ))).sum) :
    (weightedPick members score r).isSome = true := by
  induction members generalizing r with
  | nil => exact absurd rfl hne
  | cons m rest ih =>
    unfold weightedPick
    by_cases hc : r - (score m : ℚ) ≤ 0
    · rw [if_pos hc]
      rfl
    · rw [if_neg hc]
      push_neg at hc
      cases rest with
      | nil =>
        exfalso
        rw [List.map_cons, List.map_nil, List.sum_cons, List.sum_nil] at hrlt
        linarith
      | cons m2 rest2 =>
        apply ih
        · simp
        · intro x hx
          exact hpos x (List.mem_cons_of_mem m hx)
        · linarith
        · rw [List.map_cons, List.sum_cons] at hrlt
          linarith

/-- Witness for C9: two members with unit scores and the draw `3/2` make the
walk return a member. -/
theorem weightedPick_total_witness :
    (weightedPick ["甲", "乙"] (fun _ => 1) (3 / 2)).isSome = true :=
  weightedPick_total ["甲", "乙"] (fun _ => 1) (3 / 2) (by decide) (by decide)
    (by norm_num)
    (by
      rw [List.map_cons, List.map_cons, List.map_nil, List.sum_cons,
        List.sum_cons, List.sum_nil]
      norm_num)

/-- Claim C10: for every input reply for 张起灵 the truncation pass yields at
most 23 UTF-16 units, so the `length > 25` guard never fires: the result is
always the trimmed truncation, never a stock phrase, and has at most 23
units. -/
theorem enforce_stock_branch_dead (reply : List Char) (rand : Nat) :
    (truncStep (stripEmoji reply)).length ≤ 25
    ∧ enforceCharacterConsistency reply "张起灵" rand
        = trimUnits (truncStep (stripEmoji reply))
    ∧ (enforceCharacterConsistency reply "张起灵" rand).length ≤ 23 := by
  refine ⟨le_trans (truncStep_length_le _) (by norm_num),
    enforce_zql_eq reply rand, ?_⟩
  rw [enforce_zql_eq]
  exact le_trans (trimUnits_length_le _) (truncStep_length_le _)

/-- The over-long test reply of the spec's normalizer property. -/
def c4Input : String :=
  "😀这是一个测试的超长句子完全超过限制长度看看会不会正确截断处理"

/-- Counterexample to claim C4 as stated: on the spec's own test input the
normalizer returns the first 20 characters followed by the three-character
ellipsis `"..."` — a 23-unit string, hence NOT a string of at most 21
characters, not the 20 characters plus a one-character ellipsis `'…'`, and
not an element of the stock-phrase set. -/
theorem enforce_truncation_counterexample :
    enforceCharacterConsistency c4Input.data "张起灵" 0
        = toUnits "这是一个测试的超长句子完全超过限制长度看...".data
    ∧ (enforceCharacterConsistency c4Input.data "张起灵" 0).length = 23
    ∧ ¬ (enforceCharacterConsistency c4Input.data "张起灵" 0).length ≤ 21
    ∧ enforceCharacterConsistency c4Input.data "张起灵" 0
        ≠ toUnits "这是一个测试的超长句子完全超过限制长度…".data
    ∧ ((shortReplies.map (fun s => toUnits s.data)).contains
        (enforceCharacterConsistency c4Input.data "张起灵" 0)) = false := by
  refine ⟨by decide, by decide, by decide, by decide, by decide⟩

/-- Claim C4 (amended): for every reply whose emoji-stripped form exceeds 25
UTF-16 units, the 张起灵 normalizer returns the whitespace-trim of the first
20 units followed by the three-character ellipsis `"..."`, a string of at
most 23 units (the claim said at most 21). -/
theorem enforce_truncation_bound (reply : List Char) (rand : Nat)
    (h : 25 < (toUnits (stripEmoji reply)).length) :
    enforceCharacterConsistency reply "张起灵" rand
        = trimUnits ((toUnits (stripEmoji reply)).take 20 ++ [46, 46, 46])
    ∧ (enforceCharacterConsistency reply "张起灵" rand).length ≤ 23 := by
  have htr : truncStep (stripEmoji reply)
      = (toUnits (stripEmoji reply)).take 20 ++ [46, 46, 46] := by
    simp only [truncStep]
    rw [if_pos (by omega)]
  refine ⟨?_, ?_⟩
  · rw [enforce_zql_eq, htr]
  · rw [enforce_zql_eq]
    exact le_trans (trimUnits_length_le _) (truncStep_length_le _)

/-- Witness for C4 (amended): the spec's test input strips to 30 units and is
normalized to the trimmed 20-unit truncation plus `"..."`. -/
theorem enforce_truncation_bound_witness :
    25 < (toUnits (stripEmoji c4Input.data)).length
    ∧ (enforceCharacterConsistency c4Input.data "张起灵" 7
          = trimUnits ((toUnits (stripEmoji c4Input.data)).take 20 ++ [46, 46, 46])
        ∧ (enforceCharacterConsistency c4Input.data "张起灵" 7).length ≤ 23) :=
  ⟨by decide, enforce_truncation_bound c4Input.data 7 (by decide)⟩

/-- Counterexample to claim C3 as stated: on a failing completion call the
handler answers with the fallback reply, but the context update does NOT
happen — the returned context still has `messageCount = 0`, empty
`speakerHistory` and no `currentSpeaker`, although the selected speaker was
王胖子. -/
theorem groupChat_failure_no_update_counterexample :
    (handleGroupChatSmart "铁三角" initialContext "王胖子在吗" [] 0
        (Except.error ServiceError.networkError) 0 0 0).map
      (fun o => (o.speaker, o.usedFallback, o.newContext.messageCount,
        o.newContext.speakerHistory.length, o.newContext.currentSpeaker))
      = some ("王胖子", true, 0, 0, none) := by
  decide

/-- Claim C3 (amended): whenever the completion call fails, the handler still
responds — with the selected speaker and a stock per-persona fallback string,
flagged as a fallback — but it performs NO context update: the context is
returned unchanged (the claim said the update still occurs). -/
theorem groupChat_failure_fallback (character : String) (ctx : ConversationCtx)
    (message : String) (history : List HistMsg) (r : ℚ) (err : ServiceError)
    (randEnforce randFallback now : Nat) (o : GroupOutcome)
    (h : handleGroupChatSmart character ctx message history r (Except.error err)
        randEnforce randFallback now = some o) :
    o.usedFallback = true ∧ o.newContext = ctx
    ∧ o.reply = toUnits (getGroupFallbackResponse o.speaker randFallback).data
    ∧ getGroupFallbackResponse o.speaker randFallback
        ∈ (lookupStr groupFallbackTable o.speaker).getD ["我现在无法回复。"] := by
  unfold handleGroupChatSmart at h
  cases hg : lookupStr groupConfigs character with
  | none =>
    rw [hg] at h
    exact absurd h (by simp)
  | some cfg =>
    rw [hg] at h
    cases hsel : (if shouldContinueWithSameSpeaker ctx message
        then getContinuationSpeaker ctx
        else selectSpeakerByContext character message history r) with
    | none =>
      rw [hsel] at h
      exact absurd h (by simp)
    | some speaker =>
      rw [hsel] at h
      simp only [] at h
      cases hmd : lookupStr cfg.memberDetails speaker with
      | none =>
        rw [hmd] at h
        exact absurd h (by simp)
      | some md =>
        rw [hmd] at h
        simp only [] at h
        cases h
        exact ⟨rfl, rfl, rfl, fallback_mem speaker randFallback⟩

/-- The concrete failing-turn outcome used to witness C3 (amended). -/
def c3Outcome : GroupOutcome :=
  ⟨toUnits (getGroupFallbackResponse "王胖子" 2).data, "王胖子", true, initialContext⟩

/-- Witness for C3 (amended): a concrete failing turn in 铁三角 yields the
fallback flag, the untouched context and a stock 王胖子 phrase. -/
theorem groupChat_failure_fallback_witness :
    c3Outcome.usedFallback = true ∧ c3Outcome.newContext = initialContext
    ∧ c3Outcome.reply
        = toUnits (getGroupFallbackResponse c3Outcome.speaker 2).data
    ∧ getGroupFallbackResponse c3Outcome.speaker 2
        ∈ (lookupStr groupFallbackTable c3Outcome.speaker).getD ["我现在无法回复。"] :=
  groupChat_failure_fallback "铁三角" initialContext "王胖子在吗" [] 0
    ServiceError.timeout 5 2 9 c3Outcome (by decide)

end DimensionalChat
